import Mathlib

/-!
Shallow embedding of the MonyWell fund-movement core: the account store
(`src/repositories/account.repository.ts`), the request validators
(`src/validators/transfer.validator.ts` and the withdrawal schema), and the
three `AccountsController` handlers `deposit`, `transfer` and `withdraw`
(`src/Routes/users.routes.ts`).  JavaScript numbers are modelled as `Int`
(balances and amounts are integral in every scenario of interest), response
bodies as association lists of at-most-one-level-deep JSON values, and the
argon2 collaborator as an abstract `verify : String → String → Bool`
parameter with the argument convention of the specification,
`verify plaintext hash`.
-/

/-- Atomic JSON value (boolean, number or string), as emitted by the
controllers in response bodies. -/
inductive JsonPrim where
  | bool (b : Bool)
  | num (n : Int)
  | str (s : String)
deriving DecidableEq, Repr

/-- JSON value one level below the top of a response body: either an atom or
a flat object of atoms.  The controllers never nest deeper than this. -/
inductive JsonValue where
  | prim (p : JsonPrim)
  | obj (fields : List (String × JsonPrim))
deriving DecidableEq, Repr

/-- Top-level JSON response body: an object, as an association list in
insertion order (mirroring JavaScript object key order). -/
abbrev Json : Type := List (String × JsonValue)

/-- An HTTP response as produced by the Express handlers: a status code and
a JSON body.  `res.json(x)` alone corresponds to status 200. -/
structure ApiResponse where
  status : Nat
  body : Json
deriving DecidableEq

/-- ErrorFactory.getError composed with `res.status(code).json(...)`
(src/utils/error-factory.factory.ts): a body of the form
success: false, details: message. -/
def errorResponse (status : Nat) (msg : String) : ApiResponse :=
  ⟨status, [("success", JsonValue.prim (JsonPrim.bool false)),
            ("details", JsonValue.prim (JsonPrim.str msg))]⟩

/-- A row of the `accounts` table (see the `Account` interface in
src/types declarations): owner id, account number, balance, and the stored
transaction-pin hash. -/
structure Account where
  owner : Int
  account_number : Int
  balance : Int
  transaction_pin : String
deriving DecidableEq, Repr

/-- The accounts table, as the list of its rows. -/
abbrev Store : Type := List Account

namespace AccountRepository

/-- Number of rows of the table matching `where owner = owner` — the
affected-row count that `knex.update` reports. -/
def ownerCount (store : Store) (owner : Int) : Nat :=
  (List.filter (fun a => a.owner == owner) store).length

/-- AccountRepository.find: `select().where(account_number).first()` — the
first row with the given account number. -/
def find (store : Store) (accountNumber : Int) : Option Account :=
  List.find? (fun a => a.account_number == accountNumber) store

/-- AccountRepository.findByOwnerId: `select().where(owner).first()`. -/
def findByOwnerId (store : Store) (ownerId : Int) : Option Account :=
  List.find? (fun a => a.owner == ownerId) store

/-- AccountRepository.update: `trx("accounts").where(owner).update(balance)`.
Sets the balance of every row whose owner matches and returns the pair of
the new table and the affected-row count (the number of matched rows, as
reported by the PostgreSQL client configured in the knexfile). -/
def update (store : Store) (owner : Int) (balance : Int) : Store × Nat :=
  (List.map (fun a => if a.owner == owner then
      { a with balance := balance } else a) store,
   ownerCount store owner)

/-- AccountRepository.generateAccountNumber:
`Math.floor(Math.random() * 90000000) + 10000000` concatenated after the
string "21" and re-parsed with `parseInt`.  The random draw is modelled as
an arbitrary natural `r` reduced mod 90000000 (exactly the values
`Math.floor(Math.random() * 90000000)` can take); concatenating the decimal
digits of 21 in front of the decimal digits of `randomNumber` and parsing
is the number `21 * 10 ^ (number of digits of randomNumber) + randomNumber`. -/
def generateAccountNumber (r : Nat) : Nat :=
  let randomNumber := r % 90000000 + 10000000
  21 * 10 ^ (Nat.digits 10 randomNumber).length + randomNumber

end AccountRepository

/-- Validated transfer request (src/dto/transfer.dto.ts shape). -/
structure CreateTransferDto where
  source : Int
  amount : Int
  destination : Int
  transaction_pin : String
deriving DecidableEq, Repr

/-- Raw transfer request body before Joi validation: each field may be
absent. -/
structure TransferBody where
  source : Option Int
  amount : Option Int
  destination : Option Int
  transaction_pin : Option String
deriving DecidableEq, Repr

/-- validateTransfer (src/validators/transfer.validator.ts): Joi schema
requiring `source`, `amount`, `destination` (numbers) and
`transaction_pin` (string of length at least 4), reporting the first
violated key in schema order. -/
def validateTransfer (body : TransferBody) : Except String CreateTransferDto :=
  match body.source with
  | none => Except.error "source is required"
  | some source =>
    match body.amount with
    | none => Except.error "amount is required"
    | some amount =>
      match body.destination with
      | none => Except.error "destination is required"
      | some destination =>
        match body.transaction_pin with
        | none => Except.error "transaction_pin is required"
        | some pin =>
          if pin.length < 4 then
            Except.error "transaction_pin length must be at least 4 characters long"
          else
            Except.ok ⟨source, amount, destination, pin⟩

/-- Validated withdrawal request (src/dto/withdrawal.dto.ts shape). -/
structure WithdrawalDto where
  source : Int
  amount : Int
  destination : Int
  transaction_pin : String
  destinationBankName : String
deriving DecidableEq, Repr

/-- Raw withdrawal request body before Joi validation. -/
structure WithdrawalBody where
  source : Option Int
  amount : Option Int
  destination : Option Int
  transaction_pin : Option String
  destinationBankName : Option String
deriving DecidableEq, Repr

/-- validateWithdrawal (the withdrawal validator, src/unnamed/part_003):
Joi schema requiring `source`, `amount`, `destination` (numbers),
`transaction_pin` (string, min length 4) and `destinationBankName`
(string).  Note: the schema places no lower bound on `amount`. -/
def validateWithdrawal (body : WithdrawalBody) : Except String WithdrawalDto :=
  match body.source with
  | none => Except.error "source is required"
  | some source =>
    match body.amount with
    | none => Except.error "amount is required"
    | some amount =>
      match body.destination with
      | none => Except.error "destination is required"
      | some destination =>
        match body.transaction_pin with
        | none => Except.error "transaction_pin is required"
        | some pin =>
          if pin.length < 4 then
            Except.error "transaction_pin length must be at least 4 characters long"
          else
            match body.destinationBankName with
            | none => Except.error "destinationBankName is required"
            | some bank =>
              Except.ok ⟨source, amount, destination, pin, bank⟩

deriving instance DecidableEq for Except

/-- The NodeCache idempotency cache, as an association list from cache key
to the cached response body. -/
abbrev Cache : Type := List (String × Json)

namespace AccountsController

/-- AccountsController.cacheResponseIfKeyExists: when an idempotency key is
present (JavaScript truthiness: absent or empty string means no key), store
the response body under the key `Bearer userId-idempotencyKey`.  This
method only ever writes to the cache. -/
def cacheResponseIfKeyExists (cache : Cache) (userId : Int)
    (idempotencyKey : Option String) (response : Json) : Cache :=
  match idempotencyKey with
  | none => cache
  | some key =>
    if key.isEmpty then cache
    else ("Bearer " ++ toString userId ++ "-" ++ key, response) :: cache

/-- Body of the `db.transaction` callback shared by `deposit` and
`withdraw`: one conditional update that must affect exactly one row, the
thrown error (rolling the transaction back) modelled as `none`. -/
def singleUpdateTxn (store : Store) (owner : Int) (balance : Int) : Option Store :=
  if (AccountRepository.update store owner balance).2 == 1 then
    some (AccountRepository.update store owner balance).1
  else none

/-- Body of the `db.transaction` callback of `transfer`: debit the sender
owner, credit the recipient owner, then require both affected-row counts to
be exactly one; any deviation throws, which rolls back (modelled as
`none`). -/
def transferTxn (store : Store) (senderOwner senderBalance recipientOwner recipientBalance : Int) :
    Option Store :=
  if (AccountRepository.update store senderOwner senderBalance).2 == 1 &&
      (AccountRepository.update
        (AccountRepository.update store senderOwner senderBalance).1
        recipientOwner recipientBalance).2 == 1 then
    some (AccountRepository.update
      (AccountRepository.update store senderOwner senderBalance).1
      recipientOwner recipientBalance).1
  else none

/-- AccountsController.deposit.  Returns the HTTP response, the account
table after the request, and the idempotency cache after the request.  The
order of operations mirrors the source: amount positivity, account lookup
by owner, then the transactional conditional update, then (on success only)
the cache write. -/
def deposit (cache : Cache) (userId : Int) (amount : Int)
    (idempotencyKey : Option String) (store : Store) : ApiResponse × Store × Cache :=
  if amount ≤ 0 then (errorResponse 400 "Invalid amount", store, cache)
  else
    match AccountRepository.findByOwnerId store userId with
    | none => (errorResponse 404 "Bank account doesn\x27t exist", store, cache)
    | some account =>
      let updatedBalance := account.balance + amount
      match singleUpdateTxn store userId updatedBalance with
      | none => (errorResponse 400 "Deposit failed", store, cache)
      | some committed =>
        let response : Json :=
          [("success", JsonValue.prim (JsonPrim.bool true)),
           ("details", JsonValue.obj
             [("balance", JsonPrim.num updatedBalance),
              ("owner", JsonPrim.num userId)])]
        (⟨200, response⟩, committed,
         cacheResponseIfKeyExists cache userId idempotencyKey response)

/-- AccountsController.transfer.  The check order mirrors the source
exactly: schema validation, same-account check, the two reads, amount
positivity, existence of both accounts, ownership of the source, sufficient
funds, PIN verification, then the two-legged transaction. -/
def transfer (cache : Cache) (reqUserId : Int) (verify : String → String → Bool)
    (body : TransferBody) (idempotencyKey : Option String) (store : Store) :
    ApiResponse × Store × Cache :=
  match validateTransfer body with
  | Except.error msg => (errorResponse 400 msg, store, cache)
  | Except.ok dto =>
    if dto.source = dto.destination then
      (errorResponse 400 "Sender and recipient account cannot be the same", store, cache)
    else
      let senderAccount := AccountRepository.find store dto.source
      let recipientAccount := AccountRepository.find store dto.destination
      if dto.amount ≤ 0 then (errorResponse 400 "Invalid amount", store, cache)
      else
        match senderAccount, recipientAccount with
        | some sender, some recipient =>
          if sender.owner ≠ reqUserId then
            (errorResponse 400 "You are not allowed to transfer from this account", store, cache)
          else if sender.balance < dto.amount then
            (errorResponse 400 "Insufficient funds in the sender account.", store, cache)
          else if ¬ verify dto.transaction_pin sender.transaction_pin then
            (errorResponse 400 "Invalid transaction pin", store, cache)
          else
            match transferTxn store sender.owner (sender.balance - dto.amount)
                recipient.owner (recipient.balance + dto.amount) with
            | none => (errorResponse 400 "Deposit failed", store, cache)
            | some committed =>
              let response : Json :=
                [("success", JsonValue.prim (JsonPrim.bool true)),
                 ("destination", JsonValue.prim (JsonPrim.num dto.destination)),
                 ("source", JsonValue.prim (JsonPrim.num dto.source)),
                 ("amount", JsonValue.prim (JsonPrim.num dto.amount))]
              (⟨200, response⟩, committed,
               cacheResponseIfKeyExists cache reqUserId idempotencyKey response)
        | _, _ =>
          (errorResponse 404 "One or both bank accounts do not exist.", store, cache)

/-- AccountsController.withdraw.  Mirrors the source: schema validation,
source-account lookup, sufficient-funds check, PIN verification, then the
transactional conditional update.  The handler receives the authenticated
caller id `reqUserId` (populated by the auth middleware) but the source
never reads it, and it performs no amount-positivity check. -/
def withdraw (cache : Cache) (reqUserId : Int) (verify : String → String → Bool)
    (body : WithdrawalBody) (idempotencyKey : Option String) (store : Store) :
    ApiResponse × Store × Cache :=
  match validateWithdrawal body with
  | Except.error msg => (errorResponse 400 msg, store, cache)
  | Except.ok dto =>
    match AccountRepository.find store dto.source with
    | none => (errorResponse 404 "Source Bank account do not exist.", store, cache)
    | some sourceAccount =>
      if sourceAccount.balance < dto.amount then
        (errorResponse 400 "Insufficient funds in the sender account.", store, cache)
      else if ¬ verify dto.transaction_pin sourceAccount.transaction_pin then
        (errorResponse 400 "Invalid transaction pin", store, cache)
      else
        match singleUpdateTxn store sourceAccount.owner (sourceAccount.balance - dto.amount) with
        | none => (errorResponse 400 "Withdrawal failed", store, cache)
        | some committed =>
          let response : Json :=
            [("success", JsonValue.prim (JsonPrim.bool true)),
             ("destination", JsonValue.prim (JsonPrim.num dto.destination)),
             ("source", JsonValue.prim (JsonPrim.num dto.source)),
             ("amount", JsonValue.prim (JsonPrim.num dto.amount)),
             ("destinationBankName", JsonValue.prim (JsonPrim.str dto.destinationBankName))]
          (⟨200, response⟩, committed,
           cacheResponseIfKeyExists cache reqUserId idempotencyKey response)

end AccountsController

/-!
Specification-side definitions, used to compare the implementation against
the wording of the spec (refinement-style claims).
-/

/-- Modelled from the spec: the flat deposit result shape the spec claims,
success: true, balance: newBalance, owner: userId, with `balance` and
`owner` at the top level of the response body. -/
def depositResponseSpec (priorBalance amount userId : Int) : Json :=
  [("success", JsonValue.prim (JsonPrim.bool true)),
   ("balance", JsonValue.prim (JsonPrim.num (priorBalance + amount))),
   ("owner", JsonValue.prim (JsonPrim.num userId))]

/-- Outcome of evaluating the transfer preconditions, one constructor per
error of the spec taxonomy plus `proceed` carrying the validated request
and the two accounts read. -/
inductive TransferOutcome where
  | validationError (msg : String)
  | sameAccount
  | invalidAmount
  | accountNotFound
  | forbidden
  | insufficientFunds
  | invalidPin
  | proceed (dto : CreateTransferDto) (sender recipient : Account)
deriving DecidableEq

/-- Transfer precondition chain in the amended order actually implemented
by the code: schema validation, same-account check, amount positivity,
existence of both accounts, ownership, sufficient funds, PIN validity.
The first violated precondition in this order decides the outcome. -/
def transferCheckOrder (reqUserId : Int) (verify : String → String → Bool)
    (body : TransferBody) (store : Store) : TransferOutcome :=
  match validateTransfer body with
  | Except.error msg => TransferOutcome.validationError msg
  | Except.ok dto =>
    if dto.source = dto.destination then TransferOutcome.sameAccount
    else if dto.amount ≤ 0 then TransferOutcome.invalidAmount
    else
      match AccountRepository.find store dto.source,
            AccountRepository.find store dto.destination with
      | some sender, some recipient =>
        if sender.owner ≠ reqUserId then TransferOutcome.forbidden
        else if sender.balance < dto.amount then TransferOutcome.insufficientFunds
        else if ¬ verify dto.transaction_pin sender.transaction_pin then
          TransferOutcome.invalidPin
        else TransferOutcome.proceed dto sender recipient
      | _, _ => TransferOutcome.accountNotFound

/-- Response dictated by a transfer-precondition outcome: the error
response belonging to the first violated check, or, when all checks pass,
the result of the two-legged transaction. -/
def transferOutcomeResponse (store : Store) : TransferOutcome → ApiResponse
  | TransferOutcome.validationError msg => errorResponse 400 msg
  | TransferOutcome.sameAccount =>
      errorResponse 400 "Sender and recipient account cannot be the same"
  | TransferOutcome.invalidAmount => errorResponse 400 "Invalid amount"
  | TransferOutcome.accountNotFound =>
      errorResponse 404 "One or both bank accounts do not exist."
  | TransferOutcome.forbidden =>
      errorResponse 400 "You are not allowed to transfer from this account"
  | TransferOutcome.insufficientFunds =>
      errorResponse 400 "Insufficient funds in the sender account."
  | TransferOutcome.invalidPin => errorResponse 400 "Invalid transaction pin"
  | TransferOutcome.proceed dto sender recipient =>
      match AccountsController.transferTxn store sender.owner (sender.balance - dto.amount)
          recipient.owner (recipient.balance + dto.amount) with
      | none => errorResponse 400 "Deposit failed"
      | some _ =>
          ⟨200, [("success", JsonValue.prim (JsonPrim.bool true)),
                 ("destination", JsonValue.prim (JsonPrim.num dto.destination)),
                 ("source", JsonValue.prim (JsonPrim.num dto.source)),
                 ("amount", JsonValue.prim (JsonPrim.num dto.amount))]⟩

/-!
Machinery for the balance-accounting invariant: a small operational model
running any sequence of handler invocations and recording, per committed
operation, the balance deltas it applies.
-/

/-- Total balance held by an owner: the sum of the balances of the rows the
conditional update `where owner = o` touches. -/
def sumBalance (store : Store) (o : Int) : Int :=
  (List.map Account.balance (List.filter (fun a => a.owner == o) store)).sum

/-- Every row of the table has a non-negative balance. -/
def nonnegStore (store : Store) : Prop :=
  ∀ a ∈ store, 0 ≤ a.balance

instance (store : Store) : Decidable (nonnegStore store) := by
  unfold nonnegStore
  infer_instance

/-- A single invocation of one of the three fund-movement handlers. -/
inductive Op where
  | depositOp (userId amount : Int)
  | withdrawOp (reqUserId : Int) (body : WithdrawalBody)
  | transferOp (reqUserId : Int) (body : TransferBody)
deriving DecidableEq

/-- Run one handler (with an empty idempotency cache and no key, which do
not influence balances) and return the response and resulting table. -/
def applyOp (verify : String → String → Bool) (op : Op) (store : Store) :
    ApiResponse × Store :=
  match op with
  | Op.depositOp u a =>
      let r := AccountsController.deposit [] u a none store
      (r.1, r.2.1)
  | Op.withdrawOp u b =>
      let r := AccountsController.withdraw [] u verify b none store
      (r.1, r.2.1)
  | Op.transferOp u b =>
      let r := AccountsController.transfer [] u verify b none store
      (r.1, r.2.1)

/-- Balance deltas applied by one operation: empty when the operation did
not commit (non-200 response); otherwise the deltas of the committed
operation, attributed to the owners of the accounts it touched. -/
def opDeltas (verify : String → String → Bool) (op : Op) (store : Store) :
    List (Int × Int) :=
  if (applyOp verify op store).1.status == 200 then
    match op with
    | Op.depositOp u a => [(u, a)]
    | Op.withdrawOp _ b =>
        match validateWithdrawal b with
        | Except.ok dto =>
            match AccountRepository.find store dto.source with
            | some acct => [(acct.owner, -dto.amount)]
            | none => []
        | Except.error _ => []
    | Op.transferOp _ b =>
        match validateTransfer b with
        | Except.ok dto =>
            match AccountRepository.find store dto.source,
                  AccountRepository.find store dto.destination with
            | some sender, some recipient =>
                [(sender.owner, -dto.amount), (recipient.owner, dto.amount)]
            | _, _ => []
        | Except.error _ => []
  else []

/-- Net delta a list of (owner, delta) entries applies to one owner. -/
def deltaSum (o : Int) (deltas : List (Int × Int)) : Int :=
  (List.map Prod.snd (List.filter (fun d => d.1 == o) deltas)).sum

/-- Run a sequence of handler invocations left to right. -/
def runOps (verify : String → String → Bool) : List Op → Store → Store
  | [], store => store
  | op :: rest, store => runOps verify rest (applyOp verify op store).2

/-- Net delta a sequence of operations applies to one owner, each
operation evaluated against the table state it actually saw. -/
def opsDelta (verify : String → String → Bool) : List Op → Store → Int → Int
  | [], _, _ => 0
  | op :: rest, store, o =>
      deltaSum o (opDeltas verify op store) +
        opsDelta verify rest (applyOp verify op store).2 o

/-!
Helper lemmas about the store primitives.
-/

lemma ownerCount_update (store : Store) (u v o : Int) :
    AccountRepository.ownerCount (AccountRepository.update store u v).1 o =
      AccountRepository.ownerCount store o := by
  unfold AccountRepository.ownerCount AccountRepository.update
  induction store with
  | nil => rfl
  | cons a t ih =>
    by_cases hu : a.owner == u
    · by_cases ho : a.owner == o <;>
        simp_all [List.filter_cons]
    · by_cases ho : a.owner == o <;>
        simp_all [List.filter_cons]

lemma sumBalance_update_self (store : Store) (u v : Int) :
    sumBalance (AccountRepository.update store u v).1 u =
      v * (AccountRepository.ownerCount store u : Int) := by
  unfold sumBalance AccountRepository.ownerCount AccountRepository.update
  induction store with
  | nil => simp
  | cons a t ih =>
    by_cases hu : a.owner == u
    · simp_all [List.filter_cons, Int.mul_add]
      ring
    · simp_all [List.filter_cons]

lemma sumBalance_update_ne (store : Store) (u v o : Int) (h : o ≠ u) :
    sumBalance (AccountRepository.update store u v).1 o = sumBalance store o := by
  unfold sumBalance AccountRepository.update
  induction store with
  | nil => rfl
  | cons a t ih =>
    by_cases hu : a.owner == u
    · have ho : (a.owner == o) = false := by
        rw [beq_eq_false_iff_ne]
        rw [beq_iff_eq] at hu
        exact fun hc => h ((hu.symm.trans hc).symm)
      simp_all [List.filter_cons]
    · by_cases ho : a.owner == o <;> simp_all [List.filter_cons]

lemma nonneg_update (store : Store) (u v : Int) (h : nonnegStore store) (hv : 0 ≤ v) :
    nonnegStore (AccountRepository.update store u v).1 := by
  unfold nonnegStore AccountRepository.update at *
  intro x hx
  simp only [List.mem_map] at hx
  obtain ⟨a, ha, rfl⟩ := hx
  by_cases hu : a.owner == u <;> simp_all

lemma filter_eq_singleton_of_mem {l : List Account} {p : Account → Bool} {a : Account}
    (ha : a ∈ l) (hpa : p a) (hlen : (List.filter p l).length = 1) :
    List.filter p l = [a] := by
  obtain ⟨x, hx⟩ := List.length_eq_one.mp hlen
  have hmem : a ∈ List.filter p l := List.mem_filter.mpr ⟨ha, hpa⟩
  rw [hx] at hmem ⊢
  simp only [List.mem_singleton] at hmem
  rw [hmem]

lemma findByOwnerId_eq_some {store : Store} {u : Int} {a : Account}
    (h : AccountRepository.findByOwnerId store u = some a) : a ∈ store ∧ a.owner = u := by
  unfold AccountRepository.findByOwnerId at h
  refine ⟨List.mem_of_find?_eq_some h, ?_⟩
  have := List.find?_some h
  simpa using this

lemma find_eq_some {store : Store} {n : Int} {a : Account}
    (h : AccountRepository.find store n = some a) : a ∈ store ∧ a.account_number = n := by
  unfold AccountRepository.find at h
  refine ⟨List.mem_of_find?_eq_some h, ?_⟩
  have := List.find?_some h
  simpa using this

lemma sumBalance_of_unique {store : Store} {a : Account}
    (ha : a ∈ store) (hcount : AccountRepository.ownerCount store a.owner = 1) :
    sumBalance store a.owner = a.balance := by
  unfold sumBalance
  unfold AccountRepository.ownerCount at hcount
  rw [filter_eq_singleton_of_mem ha (by simp) hcount]
  simp

lemma two_le_count_of_two_mem {l : List Account} {p : Account → Bool} {a b : Account}
    (ha : a ∈ l) (hb : b ∈ l) (hab : a ≠ b) (hpa : p a) (hpb : p b) :
    2 ≤ (List.filter p l).length := by
  induction l with
  | nil => cases ha
  | cons x t ih =>
    rcases List.mem_cons.mp ha with rfl | hat
    · have hbt : b ∈ t := by
        rcases List.mem_cons.mp hb with rfl | h
        · exact absurd rfl hab
        · exact h
      have h1 : 1 ≤ (List.filter p t).length :=
        List.length_pos.mpr (List.ne_nil_of_mem (List.mem_filter.mpr ⟨hbt, hpb⟩))
      have hfc : List.filter p (a :: t) = a :: List.filter p t := by
        simp [List.filter_cons, hpa]
      rw [hfc, List.length_cons]
      omega
    · rcases List.mem_cons.mp hb with rfl | hbt
      · have h1 : 1 ≤ (List.filter p t).length :=
          List.length_pos.mpr (List.ne_nil_of_mem (List.mem_filter.mpr ⟨hat, hpa⟩))
        have hfc : List.filter p (b :: t) = b :: List.filter p t := by
          simp [List.filter_cons, hpb]
        rw [hfc, List.length_cons]
        omega
      · have h2 := ih hat hbt
        by_cases hx : p x
        · have hfc : List.filter p (x :: t) = x :: List.filter p t := by
            simp [List.filter_cons, hx]
          rw [hfc, List.length_cons]
          omega
        · have hfc : List.filter p (x :: t) = List.filter p t := by
            simp [List.filter_cons, hx]
          rw [hfc]
          exact h2

lemma sumBalance_nonneg {store : Store} (h : nonnegStore store) (o : Int) :
    0 ≤ sumBalance store o := by
  unfold sumBalance
  apply List.sum_nonneg
  intro x hx
  simp only [List.mem_map] at hx
  obtain ⟨a, ha, rfl⟩ := hx
  exact h a (List.mem_filter.mp ha).1

lemma singleUpdateTxn_eq_some {store : Store} {o v : Int} {s : Store}
    (h : AccountsController.singleUpdateTxn store o v = some s) :
    AccountRepository.ownerCount store o = 1 ∧ s = (AccountRepository.update store o v).1 := by
  unfold AccountsController.singleUpdateTxn at h
  split at h
  · rename_i hc
    simp only [AccountRepository.update, beq_iff_eq] at hc
    exact ⟨hc, (Option.some.injEq _ _ ▸ h).symm⟩
  · cases h

lemma singleUpdateTxn_isSome (store : Store) (o v : Int) :
    (AccountsController.singleUpdateTxn store o v).isSome =
      (AccountRepository.ownerCount store o == 1) := by
  unfold AccountsController.singleUpdateTxn
  by_cases hc : (AccountRepository.update store o v).2 == 1
  · simp only [AccountRepository.update] at hc
    simp [hc, AccountRepository.update]
  · simp only [AccountRepository.update] at hc
    simp [hc, AccountRepository.update]

lemma transferTxn_eq_some {store : Store} {so v1 ro v2 : Int} {s : Store}
    (h : AccountsController.transferTxn store so v1 ro v2 = some s) :
    AccountRepository.ownerCount store so = 1 ∧
    AccountRepository.ownerCount store ro = 1 ∧
    s = (AccountRepository.update (AccountRepository.update store so v1).1 ro v2).1 := by
  unfold AccountsController.transferTxn at h
  split at h
  · rename_i hc
    simp only [Bool.and_eq_true, beq_iff_eq] at hc
    obtain ⟨hc1, hc2⟩ := hc
    simp only [AccountRepository.update] at hc1 hc2
    have hro : AccountRepository.ownerCount store ro = 1 := by
      have := ownerCount_update store so v1 ro
      simp only [AccountRepository.ownerCount, AccountRepository.update] at this hc2 ⊢
      omega
    exact ⟨hc1, hro, (Option.some.injEq _ _ ▸ h).symm⟩
  · cases h

/-!
Claim theorems.
-/

/-- C9: for every value the random source can return,
generateAccountNumber produces a 10-digit integer beginning with the fixed
prefix 21 — an integer between 2110000000 and 2199999999, formed by
concatenating the digits 21 with an 8-digit random suffix. -/
theorem c9_account_number_range (r : Nat) :
    2110000000 ≤ AccountRepository.generateAccountNumber r ∧
    AccountRepository.generateAccountNumber r ≤ 2199999999 ∧
    ∃ suffix : Nat, 10000000 ≤ suffix ∧ suffix ≤ 99999999 ∧
      AccountRepository.generateAccountNumber r = 2100000000 + suffix := by
  have hmod : r % 90000000 < 90000000 := Nat.mod_lt r (by norm_num)
  have h1 : 10000000 ≤ r % 90000000 + 10000000 := by omega
  have h2 : r % 90000000 + 10000000 ≤ 99999999 := by omega
  have hlen : (Nat.digits 10 (r % 90000000 + 10000000)).length = 8 := by
    rw [Nat.digits_len 10 _ (by norm_num) (by omega)]
    have hlog : Nat.log 10 (r % 90000000 + 10000000) = 7 := by
      apply Nat.log_eq_of_pow_le_of_lt_pow
      · rw [show (10 : Nat) ^ 7 = 10000000 by norm_num]
        omega
      · rw [show (10 : Nat) ^ (7 + 1) = 100000000 by norm_num]
        omega
    omega
  have hval : AccountRepository.generateAccountNumber r =
      2100000000 + (r % 90000000 + 10000000) := by
    show 21 * 10 ^ (Nat.digits 10 (r % 90000000 + 10000000)).length +
        (r % 90000000 + 10000000) = 2100000000 + (r % 90000000 + 10000000)
    rw [hlen]
    norm_num
  exact ⟨by omega, by omega, r % 90000000 + 10000000, h1, h2, hval⟩

/-- C1 (code bug): the handlers never read the idempotency cache, so a
second deposit carrying the same idempotency key for the same user
re-executes the balance mutation: starting from balance 0, two identical
keyed deposits of 10 end at balance 20, the two responses differ, and the
response to the second request is the same whatever the cache contains. -/
theorem c1_idempotency_not_implemented :
    let store0 : Store := [⟨1, 2110000001, 0, "hash1"⟩]
    let r1 := AccountsController.deposit [] 1 10 (some "key1") store0
    let r2 := AccountsController.deposit r1.2.2 1 10 (some "key1") r1.2.1
    sumBalance r2.2.1 1 = 20 ∧ r1.1 ≠ r2.1 ∧
      ∀ cache : Cache,
        AccountsController.deposit cache 1 10 (some "key1") r1.2.1 =
          (r2.1, r2.2.1, AccountsController.cacheResponseIfKeyExists cache 1
            (some "key1") r2.1.body) := by
  refine ⟨by decide, by decide, fun cache => rfl⟩

/-- C3 (code bug): the withdrawal path never rejects a non-positive
amount — the Joi schema has no positivity bound and the handler only checks
balance < amount, which a negative amount passes.  A withdrawal of −5 from
an account with balance 0 and a valid pin succeeds with HTTP 200 and
raises the balance to 5. -/
theorem c3_negative_withdrawal_accepted :
    let store0 : Store := [⟨1, 2110000001, 0, "1234"⟩]
    let verify : String → String → Bool := fun plain stored => plain == stored
    let body : WithdrawalBody := ⟨some 2110000001, some (-5), some 99, some "1234", some "GTB"⟩
    let r := AccountsController.withdraw [] 7 verify body none store0
    r.1.status = 200 ∧ sumBalance r.2.1 1 = 5 ∧ r.2.1 ≠ store0 := by
  exact ⟨by decide, by decide, by decide⟩

/-- C5: transfer atomicity.  A committed transfer of 30 from an account
with balance 100 to one with balance 50 leaves the balances at 70 and 80 in
the same commit; when the destination-side conditional update affects a row
count other than one the transaction body throws, so the whole transaction
rolls back: directly at the transaction body when the destination row is
missing, and through the full handler when the destination owner matches
two rows, where the response is the transaction-failure error and the store
is returned untouched with the source balance still 100. -/
theorem c5_transfer_atomicity :
    let storeAB : Store := [⟨1, 100, 100, "1111"⟩, ⟨2, 200, 50, "2222"⟩]
    let verify : String → String → Bool := fun plain stored => plain == stored
    let body : TransferBody := ⟨some 100, some 30, some 200, some "1111"⟩
    let r := AccountsController.transfer [] 1 verify body none storeAB
    (r.1.status = 200 ∧ sumBalance r.2.1 1 = 70 ∧ sumBalance r.2.1 2 = 80) ∧
    AccountsController.transferTxn [⟨1, 100, 100, "1111"⟩] 1 70 2 80 = none ∧
    (let store3 : Store := [⟨1, 100, 100, "1111"⟩, ⟨2, 200, 50, "2222"⟩, ⟨2, 300, 10, "2222"⟩]
     let r3 := AccountsController.transfer [] 1 verify body none store3
     r3.1 = errorResponse 400 "Deposit failed" ∧ r3.2.1 = store3 ∧
       sumBalance r3.2.1 1 = 100) := by
  exact ⟨⟨by decide, by decide, by decide⟩, by decide, by decide, by decide, by decide⟩

/-- C6 (counterexample): the affected-row check does not detect lost
updates.  Two deposits of +10 both read balance 0; the first conditional
update commits (balance 10); the second conditional update, computed from
its stale read, still matches exactly one row, so its affected-row check
also succeeds and it commits balance 10 again — the final balance is 10,
not the 20 the claim requires, and no abort happens. -/
theorem c6_counterexample :
    let store0 : Store := [⟨1, 2110000001, 0, "1111"⟩]
    let store1 : Store := [⟨1, 2110000001, 10, "1111"⟩]
    AccountsController.singleUpdateTxn store0 1 (0 + 10) = some store1 ∧
    AccountsController.singleUpdateTxn store1 1 (0 + 10) = some store1 ∧
    sumBalance store1 1 = 10 := by
  exact ⟨by decide, by decide, by decide⟩

/-- C6 (amended): the affected-row check detects only row-count anomalies,
never lost updates: whether the conditional update succeeds is unchanged by
a concurrently committed write to the same account balance, and is
independent of the balance value being written, so an operation computed
from a stale read still commits and overwrites the concurrent change; in
the concrete interleaving of two +10 deposits from balance 0 both
affected-row checks pass and the final balance is 10. -/
theorem c6_lost_update_amended :
    (∀ (store : Store) (owner w v : Int),
      (AccountsController.singleUpdateTxn
          (AccountRepository.update store owner w).1 owner v).isSome =
        (AccountsController.singleUpdateTxn store owner v).isSome) ∧
    (∀ (store : Store) (owner v w : Int),
      (AccountsController.singleUpdateTxn store owner v).isSome =
        (AccountsController.singleUpdateTxn store owner w).isSome) ∧
    ((AccountsController.singleUpdateTxn [⟨1, 2110000001, 0, "1111"⟩] 1 (0 + 10)).isSome ∧
     (AccountsController.singleUpdateTxn [⟨1, 2110000001, 10, "1111"⟩] 1 (0 + 10)).isSome ∧
     sumBalance [⟨1, 2110000001, 10, "1111"⟩] 1 = 10) := by
  refine ⟨?_, ?_, by decide, by decide, by decide⟩
  · intro store owner w v
    rw [singleUpdateTxn_isSome, singleUpdateTxn_isSome, ownerCount_update]
  · intro store owner v w
    rw [singleUpdateTxn_isSome, singleUpdateTxn_isSome]

/-- C8 (counterexample): a successful deposit of 10 by user 1 on an account
with balance 0 returns HTTP 200, but its body is not the flat object the
claim describes — the balance and owner sit nested under a details field,
not at the top level. -/
theorem c8_counterexample :
    let store0 : Store := [⟨1, 2110000001, 0, "1111"⟩]
    let r := AccountsController.deposit [] 1 10 none store0
    r.1.status = 200 ∧ r.1.body ≠ depositResponseSpec 0 10 1 := by
  exact ⟨by decide, by decide⟩

/-- C2 (counterexample): a transfer with amount 0 to a nonexistent
destination account is answered with the invalid-amount error, not with the
account-existence error the claimed order requires — the code checks amount
positivity before account existence. -/
theorem c2_counterexample :
    let store0 : Store := [⟨1, 2110000001, 100, "1111"⟩]
    let verify : String → String → Bool := fun plain stored => plain == stored
    let body : TransferBody := ⟨some 2110000001, some 0, some 99, some "1111"⟩
    (AccountsController.transfer [] 1 verify body none store0).1 =
        errorResponse 400 "Invalid amount" ∧
    errorResponse 400 "Invalid amount" ≠
        errorResponse 404 "One or both bank accounts do not exist." := by
  exact ⟨by decide, by decide⟩

/-- C2 (amended): the transfer handler evaluates its preconditions in the
order schema validation, same-account check, amount positivity, existence
of both accounts, ownership of the source, sufficient funds, PIN validity —
its response always equals the response dictated by the first violated
check in this order (with the two-legged transaction deciding the outcome
when every check passes). -/
theorem c2_check_order (cache : Cache) (reqUserId : Int) (verify : String → String → Bool)
    (body : TransferBody) (key : Option String) (store : Store) :
    (AccountsController.transfer cache reqUserId verify body key store).1 =
      transferOutcomeResponse store (transferCheckOrder reqUserId verify body store) := by
  unfold AccountsController.transfer transferCheckOrder transferOutcomeResponse
  cases hv : validateTransfer body with
  | error msg => rfl
  | ok dto =>
    by_cases hsd : dto.source = dto.destination
    · simp [hsd]
    · simp only [hsd, if_false, ite_false]
      by_cases ham : dto.amount ≤ 0
      · cases hfs : AccountRepository.find store dto.source <;>
          cases hfd : AccountRepository.find store dto.destination <;>
          simp [ham]
      · cases hfs : AccountRepository.find store dto.source with
        | none =>
          cases hfd : AccountRepository.find store dto.destination <;> simp [ham]
        | some sender =>
          cases hfd : AccountRepository.find store dto.destination with
          | none => simp [ham]
          | some recipient =>
            by_cases hown : sender.owner = reqUserId
            · subst hown
              by_cases hfunds : sender.balance < dto.amount
              · simp [ham, hfunds]
              · by_cases hpin : verify dto.transaction_pin sender.transaction_pin
                · cases htxn : AccountsController.transferTxn store sender.owner
                      (sender.balance - dto.amount) recipient.owner
                      (recipient.balance + dto.amount) <;>
                    simp [ham, hfunds, hpin, htxn]
                · simp [ham, hfunds, hpin]
            · simp [ham, hown]

/-- C4: when every transfer precondition up to the PIN check holds, a pin
that fails to verify against the stored transaction-pin hash yields exactly
the invalid-pin error with the store and cache untouched (the verify call
precedes the mutation transaction), and a pin that does verify never
produces the invalid-pin error. -/
theorem c4_pin_check (cache : Cache) (reqUserId : Int) (verify : String → String → Bool)
    (body : TransferBody) (key : Option String) (store : Store) (dto : CreateTransferDto)
    (sender recipient : Account)
    (hval : validateTransfer body = Except.ok dto)
    (hsd : dto.source ≠ dto.destination)
    (hfs : AccountRepository.find store dto.source = some sender)
    (hfd : AccountRepository.find store dto.destination = some recipient)
    (hamt : 0 < dto.amount)
    (hown : sender.owner = reqUserId)
    (hfunds : dto.amount ≤ sender.balance) :
    (verify dto.transaction_pin sender.transaction_pin = false →
      AccountsController.transfer cache reqUserId verify body key store =
        (errorResponse 400 "Invalid transaction pin", store, cache)) ∧
    (verify dto.transaction_pin sender.transaction_pin = true →
      (AccountsController.transfer cache reqUserId verify body key store).1 ≠
        errorResponse 400 "Invalid transaction pin") := by
  subst hown
  have ham : ¬ dto.amount ≤ 0 := by omega
  have hfu : ¬ sender.balance < dto.amount := by omega
  constructor
  · intro hpin
    simp [AccountsController.transfer, hval, hsd, ham, hfs, hfd, hfu, hpin]
  · intro hpin
    cases htxn : AccountsController.transferTxn store sender.owner
        (sender.balance - dto.amount) recipient.owner (recipient.balance + dto.amount) with
    | none =>
      simp [AccountsController.transfer, hval, hsd, ham, hfs, hfd, hfu, hpin, htxn, errorResponse]
    | some s =>
      simp [AccountsController.transfer, hval, hsd, ham, hfs, hfd, hfu, hpin, htxn, errorResponse]

/-- Witness for C4 at a concrete input: with every earlier precondition
satisfied and a verify collaborator that rejects the pin, the transfer
returns the invalid-pin error and leaves the store and cache unchanged. -/
theorem c4_pin_check_witness :
    AccountsController.transfer [] 1 (fun _ _ => false)
        ⟨some 100, some 30, some 200, some "0000"⟩ none
        [⟨1, 100, 100, "hx"⟩, ⟨2, 200, 50, "hy"⟩] =
      (errorResponse 400 "Invalid transaction pin",
       [⟨1, 100, 100, "hx"⟩, ⟨2, 200, 50, "hy"⟩], []) :=
  (c4_pin_check [] 1 (fun _ _ => false)
      ⟨some 100, some 30, some 200, some "0000"⟩ none
      [⟨1, 100, 100, "hx"⟩, ⟨2, 200, 50, "hy"⟩]
      ⟨100, 30, 200, "0000"⟩ ⟨1, 100, 100, "hx"⟩ ⟨2, 200, 50, "hy"⟩
      (by decide) (by decide) (by decide) (by decide) (by decide) (by decide)
      (by decide)).1 rfl

/-- C10: the withdrawal handler never consults the caller identity — for
any two callers the response and the resulting account table coincide —
and a caller who is not the owner of the source account, armed with the
account number and a pin that verifies, successfully withdraws: the
response is 200 and the stored owner balance drops by the amount. -/
theorem c10_withdraw_ignores_caller (cache : Cache) (verify : String → String → Bool)
    (body : WithdrawalBody) (key : Option String) (store : Store)
    (dto : WithdrawalDto) (src : Account)
    (hval : validateWithdrawal body = Except.ok dto)
    (hfind : AccountRepository.find store dto.source = some src)
    (hfunds : dto.amount ≤ src.balance)
    (hpin : verify dto.transaction_pin src.transaction_pin = true)
    (hcount : AccountRepository.ownerCount store src.owner = 1) :
    (∀ u1 u2 : Int,
      (AccountsController.withdraw cache u1 verify body key store).1 =
        (AccountsController.withdraw cache u2 verify body key store).1 ∧
      (AccountsController.withdraw cache u1 verify body key store).2.1 =
        (AccountsController.withdraw cache u2 verify body key store).2.1) ∧
    ∀ caller : Int, caller ≠ src.owner →
      (AccountsController.withdraw cache caller verify body key store).1.status = 200 ∧
      sumBalance (AccountsController.withdraw cache caller verify body key store).2.1 src.owner =
        src.balance - dto.amount := by
  have hfu : ¬ src.balance < dto.amount := by omega
  have htxn : AccountsController.singleUpdateTxn store src.owner (src.balance - dto.amount) =
      some (AccountRepository.update store src.owner (src.balance - dto.amount)).1 := by
    unfold AccountsController.singleUpdateTxn
    simp [AccountRepository.update, hcount]
  constructor
  · intro u1 u2
    refine ⟨?_, ?_⟩ <;> simp [AccountsController.withdraw, hval, hfind, hfu, hpin, htxn]
  · intro caller hne
    constructor
    · simp [AccountsController.withdraw, hval, hfind, hfu, hpin, htxn]
    · simp [AccountsController.withdraw, hval, hfind, hfu, hpin, htxn]
      rw [sumBalance_update_self, hcount]
      simp

/-- Witness for C10 at a concrete input: caller 2, who does not own the
source account of user 1, withdraws 40 with a verifying pin; the request
succeeds and the owner balance drops from 100 to 60. -/
theorem c10_withdraw_ignores_caller_witness :
    (AccountsController.withdraw [] 2 (fun plain stored => plain == stored)
        ⟨some 2110000001, some 40, some 7, some "9999", some "GTB"⟩ none
        [⟨1, 2110000001, 100, "9999"⟩]).1.status = 200 ∧
    sumBalance (AccountsController.withdraw [] 2 (fun plain stored => plain == stored)
        ⟨some 2110000001, some 40, some 7, some "9999", some "GTB"⟩ none
        [⟨1, 2110000001, 100, "9999"⟩]).2.1 1 = 100 - 40 :=
  (c10_withdraw_ignores_caller [] (fun plain stored => plain == stored)
      ⟨some 2110000001, some 40, some 7, some "9999", some "GTB"⟩ none
      [⟨1, 2110000001, 100, "9999"⟩] ⟨2110000001, 40, 7, "9999", "GTB"⟩
      ⟨1, 2110000001, 100, "9999"⟩
      (by decide) (by decide) (by decide) (by decide) (by decide)).2 2 (by decide)

/-- C8 (amended): a successful deposit of amount a by user u on an account
with prior balance b returns the object success: true with a details field
holding balance: b + a and owner: u — the balance and owner are nested
under details, not at the top level. -/
theorem c8_deposit_response (cache : Cache) (u a : Int) (key : Option String) (store : Store)
    (acct : Account)
    (hfind : AccountRepository.findByOwnerId store u = some acct)
    (hpos : 0 < a)
    (hcount : AccountRepository.ownerCount store u = 1) :
    (AccountsController.deposit cache u a key store).1 =
      ⟨200, [("success", JsonValue.prim (JsonPrim.bool true)),
             ("details", JsonValue.obj
               [("balance", JsonPrim.num (acct.balance + a)),
                ("owner", JsonPrim.num u)])]⟩ := by
  have ham : ¬ a ≤ 0 := by omega
  have htxn : AccountsController.singleUpdateTxn store u (acct.balance + a) =
      some (AccountRepository.update store u (acct.balance + a)).1 := by
    unfold AccountsController.singleUpdateTxn
    simp [AccountRepository.update, hcount]
  simp [AccountsController.deposit, ham, hfind, htxn]

/-- Witness for C8 at a concrete input: depositing 10 on a balance of 0
returns the nested response with details.balance 10 and details.owner 1. -/
theorem c8_deposit_response_witness :
    (AccountsController.deposit [] 1 10 none [⟨1, 2110000001, 0, "hz"⟩]).1 =
      ⟨200, [("success", JsonValue.prim (JsonPrim.bool true)),
             ("details", JsonValue.obj
               [("balance", JsonPrim.num (0 + 10)),
                ("owner", JsonPrim.num 1)])]⟩ :=
  c8_deposit_response [] 1 10 none [⟨1, 2110000001, 0, "hz"⟩] ⟨1, 2110000001, 0, "hz"⟩
    (by decide) (by decide) (by decide)

lemma applyOp_fail_spec (verify : String → String → Bool) (op : Op) (store : Store)
    (h : nonnegStore store)
    (hst : (applyOp verify op store).1.status ≠ 200)
    (hsame : (applyOp verify op store).2 = store) :
    nonnegStore (applyOp verify op store).2 ∧
    ∀ o, sumBalance (applyOp verify op store).2 o =
      sumBalance store o + deltaSum o (opDeltas verify op store) := by
  have hdel : opDeltas verify op store = [] := by
    unfold opDeltas
    simp [hst]
  rw [hsame, hdel]
  exact ⟨h, fun o => by simp [deltaSum]⟩

lemma applyOp_spec (verify : String → String → Bool) (op : Op) (store : Store)
    (h : nonnegStore store) :
    nonnegStore (applyOp verify op store).2 ∧
    ∀ o, sumBalance (applyOp verify op store).2 o =
      sumBalance store o + deltaSum o (opDeltas verify op store) := by
  cases op with
  | depositOp u a =>
    by_cases ham : a ≤ 0
    · exact applyOp_fail_spec _ _ _ h
        (by simp [applyOp, AccountsController.deposit, ham, errorResponse]) (by simp [applyOp, AccountsController.deposit, ham])
    · cases hf : AccountRepository.findByOwnerId store u with
      | none =>
        exact applyOp_fail_spec _ _ _ h
          (by simp [applyOp, AccountsController.deposit, ham, hf, errorResponse]) (by simp [applyOp, AccountsController.deposit, ham, hf])
      | some acct =>
        cases htxn : AccountsController.singleUpdateTxn store u (acct.balance + a) with
        | none =>
          exact applyOp_fail_spec _ _ _ h
            (by simp [applyOp, AccountsController.deposit, ham, hf, htxn, errorResponse]) (by simp [applyOp, AccountsController.deposit, ham, hf, htxn])
        | some committed =>
          obtain ⟨hcount, hcom⟩ := singleUpdateTxn_eq_some htxn
          obtain ⟨hmem, howner⟩ := findByOwnerId_eq_some hf
          have happ : applyOp verify (Op.depositOp u a) store =
              (⟨200, [("success", JsonValue.prim (JsonPrim.bool true)),
                      ("details", JsonValue.obj
                        [("balance", JsonPrim.num (acct.balance + a)),
                         ("owner", JsonPrim.num u)])]⟩, committed) := by
            simp [applyOp, AccountsController.deposit, ham, hf, htxn]
          have hdel : opDeltas verify (Op.depositOp u a) store = [(u, a)] := by
            unfold opDeltas
            rw [happ]
            simp
          rw [happ, hdel]
          subst hcom
          constructor
          · exact nonneg_update store u _ h (by have := h acct hmem; omega)
          · intro o
            by_cases ho : o = u
            · rw [ho, sumBalance_update_self, hcount]
              have hsum : sumBalance store u = acct.balance := by
                rw [← howner]
                exact sumBalance_of_unique hmem (by rw [howner]; exact hcount)
              rw [hsum]
              simp [deltaSum]
            · rw [sumBalance_update_ne _ _ _ _ ho]
              have hx : (u == o) = false := beq_eq_false_iff_ne.mpr (fun hh => ho hh.symm)
              simp [deltaSum, hx]
  | withdrawOp ruid b =>
    cases hval : validateWithdrawal b with
    | error msg =>
      exact applyOp_fail_spec _ _ _ h
        (by simp [applyOp, AccountsController.withdraw, hval, errorResponse]) (by simp [applyOp, AccountsController.withdraw, hval])
    | ok dto =>
      cases hf : AccountRepository.find store dto.source with
      | none =>
        exact applyOp_fail_spec _ _ _ h
          (by simp [applyOp, AccountsController.withdraw, hval, hf, errorResponse]) (by simp [applyOp, AccountsController.withdraw, hval, hf])
      | some src =>
        by_cases hfunds : src.balance < dto.amount
        · exact applyOp_fail_spec _ _ _ h
            (by simp [applyOp, AccountsController.withdraw, hval, hf, hfunds, errorResponse]) (by simp [applyOp, AccountsController.withdraw, hval, hf, hfunds])
        · by_cases hpin : verify dto.transaction_pin src.transaction_pin
          · cases htxn : AccountsController.singleUpdateTxn store src.owner
                (src.balance - dto.amount) with
            | none =>
              exact applyOp_fail_spec _ _ _ h
                (by simp [applyOp, AccountsController.withdraw, hval, hf, hfunds, hpin, htxn, errorResponse])
                (by simp [applyOp, AccountsController.withdraw, hval, hf, hfunds, hpin, htxn])
            | some committed =>
              obtain ⟨hcount, hcom⟩ := singleUpdateTxn_eq_some htxn
              obtain ⟨hmem, hnum⟩ := find_eq_some hf
              have happ : applyOp verify (Op.withdrawOp ruid b) store =
                  (⟨200, [("success", JsonValue.prim (JsonPrim.bool true)),
                          ("destination", JsonValue.prim (JsonPrim.num dto.destination)),
                          ("source", JsonValue.prim (JsonPrim.num dto.source)),
                          ("amount", JsonValue.prim (JsonPrim.num dto.amount)),
                          ("destinationBankName",
                            JsonValue.prim (JsonPrim.str dto.destinationBankName))]⟩,
                   committed) := by
                simp [applyOp, AccountsController.withdraw, hval, hf, hfunds, hpin, htxn]
              have hdel : opDeltas verify (Op.withdrawOp ruid b) store =
                  [(src.owner, -dto.amount)] := by
                unfold opDeltas
                rw [happ]
                simp [hval, hf]
              rw [happ, hdel]
              subst hcom
              constructor
              · exact nonneg_update store src.owner _ h (by omega)
              · intro o
                by_cases ho : o = src.owner
                · rw [ho, sumBalance_update_self, hcount]
                  rw [sumBalance_of_unique hmem hcount]
                  simp [deltaSum]
                  omega
                · rw [sumBalance_update_ne _ _ _ _ ho]
                  have hx : (src.owner == o) = false :=
                    beq_eq_false_iff_ne.mpr (fun hh => ho hh.symm)
                  simp [deltaSum, hx]
          · exact applyOp_fail_spec _ _ _ h
              (by simp [applyOp, AccountsController.withdraw, hval, hf, hfunds, hpin, errorResponse]) (by simp [applyOp, AccountsController.withdraw, hval, hf, hfunds, hpin])
  | transferOp ruid b =>
    cases hval : validateTransfer b with
    | error msg =>
      exact applyOp_fail_spec _ _ _ h
        (by simp [applyOp, AccountsController.transfer, hval, errorResponse]) (by simp [applyOp, AccountsController.transfer, hval])
    | ok dto =>
      by_cases hsd : dto.source = dto.destination
      · exact applyOp_fail_spec _ _ _ h
          (by simp [applyOp, AccountsController.transfer, hval, hsd, errorResponse]) (by simp [applyOp, AccountsController.transfer, hval, hsd])
      · by_cases ham : dto.amount ≤ 0
        · exact applyOp_fail_spec _ _ _ h
            (by simp [applyOp, AccountsController.transfer, hval, hsd, ham, errorResponse]) (by simp [applyOp, AccountsController.transfer, hval, hsd, ham])
        · cases hfs : AccountRepository.find store dto.source with
          | none =>
            cases hfd : AccountRepository.find store dto.destination with
            | none =>
              exact applyOp_fail_spec _ _ _ h
                (by simp [applyOp, AccountsController.transfer, hval, hsd, ham, hfs, hfd, errorResponse])
                (by simp [applyOp, AccountsController.transfer, hval, hsd, ham, hfs, hfd])
            | some recipient =>
              exact applyOp_fail_spec _ _ _ h
                (by simp [applyOp, AccountsController.transfer, hval, hsd, ham, hfs, hfd, errorResponse])
                (by simp [applyOp, AccountsController.transfer, hval, hsd, ham, hfs, hfd])
          | some sender =>
            cases hfd : AccountRepository.find store dto.destination with
            | none =>
              exact applyOp_fail_spec _ _ _ h
                (by simp [applyOp, AccountsController.transfer, hval, hsd, ham, hfs, hfd, errorResponse])
                (by simp [applyOp, AccountsController.transfer, hval, hsd, ham, hfs, hfd])
            | some recipient =>
              by_cases hown : sender.owner = ruid
              · subst hown
                by_cases hfunds : sender.balance < dto.amount
                · exact applyOp_fail_spec _ _ _ h
                    (by simp [applyOp, AccountsController.transfer, hval, hsd, ham, hfs, hfd,
                      hfunds, errorResponse]) (by simp [applyOp, AccountsController.transfer, hval, hsd, ham, hfs, hfd,
                      hfunds])
                · by_cases hpin : verify dto.transaction_pin sender.transaction_pin
                  · cases htxn : AccountsController.transferTxn store sender.owner
                        (sender.balance - dto.amount) recipient.owner
                        (recipient.balance + dto.amount) with
                    | none =>
                      exact applyOp_fail_spec _ _ _ h
                        (by simp [applyOp, AccountsController.transfer, hval, hsd, ham, hfs,
                          hfd, hfunds, hpin, htxn, errorResponse]) (by simp [applyOp, AccountsController.transfer, hval, hsd, ham, hfs,
                          hfd, hfunds, hpin, htxn])
                    | some committed =>
                      obtain ⟨hc1, hc2, hcom⟩ := transferTxn_eq_some htxn
                      obtain ⟨hmem1, hnum1⟩ := find_eq_some hfs
                      obtain ⟨hmem2, hnum2⟩ := find_eq_some hfd
                      have hsr : sender ≠ recipient := by
                        intro hh
                        exact hsd (by rw [← hnum1, hh, hnum2])
                      have hneq : sender.owner ≠ recipient.owner := by
                        intro heq
                        have h2le := two_le_count_of_two_mem hmem1 hmem2 hsr
                          (p := fun x => x.owner == sender.owner) (by simp) (by simp [heq])
                        have : AccountRepository.ownerCount store sender.owner =
                            (List.filter (fun x => x.owner == sender.owner) store).length := rfl
                        omega
                      have happ : applyOp verify (Op.transferOp sender.owner b) store =
                          (⟨200, [("success", JsonValue.prim (JsonPrim.bool true)),
                                  ("destination", JsonValue.prim (JsonPrim.num dto.destination)),
                                  ("source", JsonValue.prim (JsonPrim.num dto.source)),
                                  ("amount", JsonValue.prim (JsonPrim.num dto.amount))]⟩,
                           committed) := by
                        simp [applyOp, AccountsController.transfer, hval, hsd, ham, hfs, hfd,
                          hfunds, hpin, htxn]
                      have hdel : opDeltas verify (Op.transferOp sender.owner b) store =
                          [(sender.owner, -dto.amount), (recipient.owner, dto.amount)] := by
                        unfold opDeltas
                        rw [happ]
                        simp [hval, hfs, hfd]
                      rw [happ, hdel]
                      subst hcom
                      have hv1 : (0 : Int) ≤ sender.balance - dto.amount := by omega
                      have hv2 : (0 : Int) ≤ recipient.balance + dto.amount := by
                        have := h recipient hmem2
                        omega
                      constructor
                      · exact nonneg_update _ recipient.owner _
                          (nonneg_update store sender.owner _ h hv1) hv2
                      · intro o
                        by_cases ho1 : o = sender.owner
                        · rw [ho1]
                          rw [sumBalance_update_ne _ _ _ _ hneq]
                          rw [sumBalance_update_self, hc1]
                          rw [sumBalance_of_unique hmem1 hc1]
                          have hx : (recipient.owner == sender.owner) = false :=
                            beq_eq_false_iff_ne.mpr (fun hh => hneq hh.symm)
                          simp [deltaSum, hx]
                          omega
                        · by_cases ho2 : o = recipient.owner
                          · rw [ho2, sumBalance_update_self, ownerCount_update, hc2]
                            rw [sumBalance_of_unique hmem2 hc2]
                            have hx : (sender.owner == recipient.owner) = false :=
                              beq_eq_false_iff_ne.mpr hneq
                            simp [deltaSum, hx]
                          · rw [sumBalance_update_ne _ _ _ _ ho2]
                            rw [sumBalance_update_ne _ _ _ _ ho1]
                            have hx1 : (sender.owner == o) = false :=
                              beq_eq_false_iff_ne.mpr (fun hh => ho1 hh.symm)
                            have hx2 : (recipient.owner == o) = false :=
                              beq_eq_false_iff_ne.mpr (fun hh => ho2 hh.symm)
                            simp [deltaSum, hx1, hx2]
                  · exact applyOp_fail_spec _ _ _ h
                      (by simp [applyOp, AccountsController.transfer, hval, hsd, ham, hfs,
                        hfd, hfunds, hpin, errorResponse]) (by simp [applyOp, AccountsController.transfer, hval, hsd, ham, hfs,
                        hfd, hfunds, hpin])
              · exact applyOp_fail_spec _ _ _ h
                  (by simp [applyOp, AccountsController.transfer, hval, hsd, ham, hfs, hfd,
                    hown, errorResponse]) (by simp [applyOp, AccountsController.transfer, hval, hsd, ham, hfs, hfd,
                    hown])

/-- C7: starting from a table whose balances are all non-negative, any
sequence of handler invocations keeps every balance non-negative, and every
owner balance after the run equals the balance before plus the arithmetic
sum of the deltas applied by the operations that committed (deposits add
their amount, withdrawals subtract theirs, transfers subtract from the
source owner and add to the destination owner; operations answered with an
error apply no delta). -/
theorem c7_balance_accounting (verify : String → String → Bool) (ops : List Op) (store : Store)
    (h : nonnegStore store) :
    nonnegStore (runOps verify ops store) ∧
    ∀ o, sumBalance (runOps verify ops store) o =
      sumBalance store o + opsDelta verify ops store o := by
  induction ops generalizing store with
  | nil => exact ⟨h, fun o => by simp [runOps, opsDelta]⟩
  | cons op rest ih =>
    obtain ⟨h1, h2⟩ := applyOp_spec verify op store h
    obtain ⟨h3, h4⟩ := ih (applyOp verify op store).2 h1
    refine ⟨by simpa [runOps] using h3, fun o => ?_⟩
    have hr := h4 o
    simp only [runOps, opsDelta]
    rw [hr, h2 o]
    ring

/-- Witness for C7 at a concrete input: a deposit of 10 then a withdrawal
of 30 on a balance of 100 keep the store non-negative and land exactly at
the initial balance plus the net applied delta. -/
theorem c7_balance_accounting_witness :
    nonnegStore ([⟨1, 2110000001, 100, "1234"⟩] : Store) ∧
    nonnegStore (runOps (fun plain stored => plain == stored)
      [Op.depositOp 1 10,
       Op.withdrawOp 1 ⟨some 2110000001, some 30, some 5, some "1234", some "X999"⟩]
      [⟨1, 2110000001, 100, "1234"⟩]) ∧
    sumBalance (runOps (fun plain stored => plain == stored)
      [Op.depositOp 1 10,
       Op.withdrawOp 1 ⟨some 2110000001, some 30, some 5, some "1234", some "X999"⟩]
      [⟨1, 2110000001, 100, "1234"⟩]) 1 =
      sumBalance [⟨1, 2110000001, 100, "1234"⟩] 1 +
        opsDelta (fun plain stored => plain == stored)
          [Op.depositOp 1 10,
           Op.withdrawOp 1 ⟨some 2110000001, some 30, some 5, some "1234", some "X999"⟩]
          [⟨1, 2110000001, 100, "1234"⟩] 1 := by
  refine ⟨by decide, ?_, ?_⟩
  · exact (c7_balance_accounting _ _ _ (by decide)).1
  · exact (c7_balance_accounting _ _ _ (by decide)).2 1
